import Mathlib

/-!
Verification of the SmkmStore offset-recovery code (SmkmStore.py).

The module under study resolves byte offsets of fields inside the Windows 10
SMKM_STORE structure by emulating kernel routines over a synthetic probe
buffer.  The CPU emulator and disassembler are external collaborators; an
emulation run is therefore represented here by the data it hands back to the
code under study: the ordered list of memory-access events delivered to the
memory hook, and the final value read out of the designated register.
Everything the Python code itself computes (hook state updates, offset
arithmetic, byte packing, substring search, dispatch strings) is embedded
directly.
-/

/-- Memory-access event delivered by the emulator to a memory hook:
access type (UC_MEM_READ is 16), address, size and value, in the order the
hook callback receives them. -/
structure AccessEvent where
  accessType : Nat
  memAccessAddress : Nat
  memAccessSize : Nat
  memValue : Nat

/-- State of the closure-captured dictionary mHookData of
sks_compressedregionptrarray: the recorded offset (None initially) and the
base address of the loaded probe. -/
structure MHookData where
  offset : Option Nat
  structAddr : Nat

/-- Python truthiness of the mHookData offset entry: None and 0 are falsy,
every other integer is truthy. -/
def pyTruthy : Option Nat → Bool
  | none => false
  | some a => decide (a ≠ 0)

/-- Embedding of the mHook callback in sks_compressedregionptrarray
(SmkmStore.py lines 95-101): if the recorded offset is truthy the event is
ignored; otherwise a read event (accessType 16) stores its address. -/
def mHook (d : MHookData) (ev : AccessEvent) : MHookData :=
  if pyTruthy d.offset then d
  else if ev.accessType = 16 then ⟨some ev.memAccessAddress, d.structAddr⟩
  else d

/-- Address of the first read event (accessType 16) of an emulation trace,
if any. -/
def firstRead? : List AccessEvent → Option Nat
  | [] => none
  | ev :: rest => if ev.accessType = 16 then some ev.memAccessAddress else firstRead? rest

/-- Byte of the probe at position p.  Positions are grouped in blocks of 4;
block n carries the low base-64 digit of n, then 64 plus the high digit,
then the two tag bytes 128 and 129. -/
def patByte (p : Nat) : Nat :=
  if p % 4 = 0 then p / 4 % 64
  else if p % 4 = 1 then 64 + p / 4 / 64
  else if p % 4 = 2 then 128
  else 129

/-- Modelled from the spec: Tools.patgen, the probe generator, is code of
this repository outside src/ (only its call sites patgen(8192) appear in
SmkmStore.py).  Per spec section 4.1 it assigns each position a
deterministic, position-derived tag such that the 4-byte (hence also the
8-byte) windows are pairwise distinct across the whole buffer. -/
def patgen (buf_len : Nat) : List Nat :=
  (List.range buf_len).map patByte

/-- Inverse of the probe windows: recovers the generating position from the
4 bytes of a window, using the tag bytes 128/129 to identify the position's
residue modulo 4 and the base-64 digits to recover the block index. -/
def decode4 (w0 w1 w2 w3 : Nat) : Nat :=
  if w0 < 64 then 4 * ((w1 - 64) * 64 + w0)
  else if w0 < 96 then 4 * (64 * (w0 - 64) + (w3 + 63) % 64) + 1
  else if w0 = 128 then 4 * (64 * (w3 - 64) + w2) - 2
  else 4 * (64 * (w2 - 64) + w1) - 1

/-- Embedding of Python bytes.find: index of the first occurrence of needle
as a contiguous subsequence of hay, and -1 when there is none. -/
def pyFind (hay needle : List Nat) : Int :=
  match (List.range (hay.length + 1)).find? (fun i => (hay.drop i).take needle.length == needle) with
  | some i => (i : Int)
  | none => -1

/-- Embedding of struct.pack for the fixed-width little-endian integer
formats: width bytes, least significant first; none models the struct.error
raised when the value does not fit the width. -/
def packLE (width : Nat) (v : Int) : Option (List Nat) :=
  if 0 ≤ v ∧ v < (2 : Int) ^ (8 * width) then
    some ((List.range width).map (fun t => v.toNat >>> (8 * t) % 256))
  else none

/-- Embedding of struct.pack restricted to the two format strings the code
uses (SmkmStore.py line 127): little-endian 8-byte for Q and little-endian
4-byte for I. -/
def structPack (fmt : String) (v : Int) : Option (List Nat) :=
  if fmt = "<Q" then packLE 8 v
  else if fmt = "<I" then packLE 4 v
  else none

/-- Register name selected by sks_compressedregionptrarray
(SmkmStore.py line 92). -/
def reg_cx_compressedregionptrarray (is64 : Bool) : String :=
  if is64 then "rcx" else "ecx"

/-- Register name selected by sks_storeownerprocess (SmkmStore.py line 126). -/
def reg_cx_storeownerprocess (is64 : Bool) : String :=
  if is64 then "rcx" else "ecx"

/-- Pack format string selected by sks_storeownerprocess
(SmkmStore.py line 127). -/
def struct_fmt (is64 : Bool) : String :=
  if is64 then "<Q" else "<I"

/-- Architecture key computed by _dump (SmkmStore.py line 44). -/
def dump_arch (is64 : Bool) : String :=
  if is64 then "x64" else "x86"

/-- Embedding of sks_ststore (SmkmStore.py lines 55-62): the ST_STORE
structure is assumed nested at offset 0 and the resolver is the constant 0,
with no symbol lookup, probe generation or emulation. -/
def sks_ststore : Int := 0

/-- Embedding of sks_compressedregionptrarray (SmkmStore.py lines 66-105).
The external emulator (flare-emu) is represented by its observable
interaction: lp_smkmstore is the base address loadBytes chose for the probe,
and trace is the ordered list of memory-access events emulateRange delivers
to the mHook callback.  The function folds the hook over the trace and
returns the recorded address minus the probe base; a still-None offset makes
the final subtraction raise a TypeError in Python, modelled as none. -/
def sks_compressedregionptrarray (lp_smkmstore : Nat) (trace : List AccessEvent) : Option Int :=
  let mHookData := trace.foldl mHook ⟨none, lp_smkmstore⟩
  match mHookData.offset with
  | none => none
  | some a => some ((a : Int) - (mHookData.structAddr : Int))

/-- Embedding of sks_storeownerprocess (SmkmStore.py lines 109-135).  The
external emulator run bounded to the located call site is represented by the
final value of the designated register (reg_ecx, the result of getRegVal);
the function packs it with the active pointer-width little-endian format and
searches the probe for the packed bytes.  A struct.error propagates
(modelled as none); otherwise the result is the bytes.find result. -/
def sks_storeownerprocess (is64 : Bool) (reg_ecx : Int) : Option Int :=
  let pat := patgen 8192
  (structPack (struct_fmt is64) reg_ecx).map (fun packed => pyFind pat packed)

/-- Modelled from the spec: the architecture-dispatch registry
Tools.Info.arch_fns is built by the arch32/arch64 decorators of Tools, code
of this repository outside src/.  Per spec section 4.6 each decoration
registers the decorated resolver under the corresponding bitness key; the
three SmkmStore resolvers each carry both decorations (SmkmStore.py lines
53-54, 64-65 and 107-108), giving these (architecture key, field name)
entries. -/
def arch_fns : List (String × String) :=
  [ ("x86", "sks_ststore"), ("x64", "sks_ststore"),
    ("x86", "sks_compressedregionptrarray"), ("x64", "sks_compressedregionptrarray"),
    ("x86", "sks_storeownerprocess"), ("x64", "sks_storeownerprocess") ]

/-- The three field names _dump looks up in the dispatch registry
(SmkmStore.py lines 45-47). -/
def smkmstore_fields : List String :=
  [ "sks_ststore", "sks_compressedregionptrarray", "sks_storeownerprocess" ]

/-- Embedding of _dump (SmkmStore.py lines 40-48).  The three resolver
outcomes are inputs (none models a resolver call that raises).  _dump wraps
none of its three statements in any exception handler, so a raising call
aborts the function: the result is the list of field values actually logged,
paired with a flag saying whether the dump ran to completion. -/
def _dump (ststore compressed storeowner : Option Int) : List Int × Bool :=
  match ststore with
  | none => ([], false)
  | some v1 =>
    match compressed with
    | none => ([v1], false)
    | some v2 =>
      match storeowner with
      | none => ([v1, v2], false)
      | some v3 => ([v1, v2, v3], true)

/-! Helper lemmas. -/

lemma patgen_length (n : Nat) : (patgen n).length = n := by
  simp [patgen]

lemma patByte_mul4 (n : Nat) : patByte (4 * n) = n % 64 := by
  have h1 : 4 * n % 4 = 0 := by omega
  have h2 : 4 * n / 4 = n := by omega
  simp [patByte, h1, h2]

lemma patByte_mul4_add1 (n : Nat) : patByte (4 * n + 1) = 64 + n / 64 := by
  have h1 : (4 * n + 1) % 4 = 1 := by omega
  have h2 : (4 * n + 1) / 4 = n := by omega
  simp [patByte, h1, h2]

lemma patByte_mul4_add2 (n : Nat) : patByte (4 * n + 2) = 128 := by
  have h1 : (4 * n + 2) % 4 = 2 := by omega
  simp [patByte, h1]

lemma patByte_mul4_add3 (n : Nat) : patByte (4 * n + 3) = 129 := by
  have h1 : (4 * n + 3) % 4 = 3 := by omega
  simp [patByte, h1]

lemma patByte_le (p : Nat) (hp : p < 8192) : patByte p ≤ 129 := by
  unfold patByte
  have hd : p / 4 / 64 ≤ 31 := by omega
  split
  · omega
  · split
    · omega
    · split
      · omega
      · omega

lemma decode_patByte (i : Nat) (hi : i + 4 ≤ 8192) :
    decode4 (patByte i) (patByte (i + 1)) (patByte (i + 2)) (patByte (i + 3)) = i := by
  have h4 : i % 4 = 0 ∨ i % 4 = 1 ∨ i % 4 = 2 ∨ i % 4 = 3 := by omega
  rcases h4 with h | h | h | h
  · obtain ⟨n, rfl⟩ : ∃ n, i = 4 * n := ⟨i / 4, by omega⟩
    have e1 : 4 * n + 1 = 4 * n + 1 := rfl
    rw [patByte_mul4, patByte_mul4_add1, patByte_mul4_add2, patByte_mul4_add3]
    unfold decode4
    rw [if_pos (by omega)]
    omega
  · obtain ⟨n, rfl⟩ : ∃ n, i = 4 * n + 1 := ⟨i / 4, by omega⟩
    have e1 : 4 * n + 1 + 1 = 4 * n + 2 := by omega
    have e2 : 4 * n + 1 + 2 = 4 * n + 3 := by omega
    have e3 : 4 * n + 1 + 3 = 4 * (n + 1) := by omega
    rw [e1, e2, e3, patByte_mul4_add1, patByte_mul4_add2, patByte_mul4_add3, patByte_mul4]
    unfold decode4
    rw [if_neg (by omega), if_pos (by omega)]
    omega
  · obtain ⟨n, rfl⟩ : ∃ n, i = 4 * n + 2 := ⟨i / 4, by omega⟩
    have e1 : 4 * n + 2 + 1 = 4 * n + 3 := by omega
    have e2 : 4 * n + 2 + 2 = 4 * (n + 1) := by omega
    have e3 : 4 * n + 2 + 3 = 4 * (n + 1) + 1 := by omega
    rw [e1, e2, e3, patByte_mul4_add2, patByte_mul4_add3, patByte_mul4, patByte_mul4_add1]
    unfold decode4
    rw [if_neg (by omega), if_neg (by omega), if_pos (by omega)]
    omega
  · obtain ⟨n, rfl⟩ : ∃ n, i = 4 * n + 3 := ⟨i / 4, by omega⟩
    have e1 : 4 * n + 3 + 1 = 4 * (n + 1) := by omega
    have e2 : 4 * n + 3 + 2 = 4 * (n + 1) + 1 := by omega
    have e3 : 4 * n + 3 + 3 = 4 * (n + 1) + 2 := by omega
    rw [e1, e2, e3, patByte_mul4_add3, patByte_mul4, patByte_mul4_add1, patByte_mul4_add2]
    unfold decode4
    rw [if_neg (by omega), if_neg (by omega), if_neg (by omega)]
    omega

lemma patgen_getElem (p : Nat) (hp : p < 8192) :
    (patgen 8192)[p]? = some (patByte p) := by
  simp [patgen, List.getElem?_map, List.getElem?_range, hp]

lemma slice_get (i w t : Nat) (htw : t < w) (hit : i + t < 8192) :
    (((patgen 8192).drop i).take w)[t]? = some (patByte (i + t)) := by
  rw [List.getElem?_take, if_pos htw, List.getElem?_drop, patgen_getElem (i + t) hit]

lemma slice_length (i w : Nat) (h : i + w ≤ 8192) :
    (((patgen 8192).drop i).take w).length = w := by
  simp [patgen]
  omega

lemma slice_eq_map (i w : Nat) (h : i + w ≤ 8192) :
    ((patgen 8192).drop i).take w = (List.range w).map (fun t => patByte (i + t)) := by
  apply List.ext_getElem?
  intro n
  by_cases hn : n < w
  · rw [slice_get i w n hn (by omega), List.getElem?_map, List.getElem?_range hn]
    rfl
  · have h1 : (((patgen 8192).drop i).take w).length ≤ n := by
      rw [slice_length i w h]; omega
    have h2 : ((List.range w).map (fun t => patByte (i + t))).length ≤ n := by
      simp; omega
    rw [List.getElem?_eq_none h1, List.getElem?_eq_none h2]

lemma window_inj (i j w : Nat) (h4 : 4 ≤ w) (hi : i + w ≤ 8192) (hj : j + w ≤ 8192)
    (h : ((patgen 8192).drop i).take w = ((patgen 8192).drop j).take w) : i = j := by
  have hp : ∀ t, t < 4 → patByte (i + t) = patByte (j + t) := by
    intro t ht
    have h1 : (((patgen 8192).drop i).take w)[t]? = (((patgen 8192).drop j).take w)[t]? := by
      rw [h]
    rw [slice_get i w t (by omega) (by omega), slice_get j w t (by omega) (by omega)] at h1
    exact Option.some.inj h1
  have e0 : patByte i = patByte j := by simpa using hp 0 (by omega)
  have e1 : patByte (i + 1) = patByte (j + 1) := hp 1 (by omega)
  have e2 : patByte (i + 2) = patByte (j + 2) := hp 2 (by omega)
  have e3 : patByte (i + 3) = patByte (j + 3) := hp 3 (by omega)
  have di := decode_patByte i (by omega)
  have dj := decode_patByte j (by omega)
  rw [e0, e1, e2, e3] at di
  rw [di] at dj
  exact dj

lemma pyFind_eq_of (hay needle : List Nat) (k : Nat) (hk : k ≤ hay.length)
    (hmatch : (hay.drop k).take needle.length = needle)
    (huniq : ∀ i, (hay.drop i).take needle.length = needle → i = k) :
    pyFind hay needle = (k : Int) := by
  unfold pyFind
  cases hfind : (List.range (hay.length + 1)).find?
      (fun i => (hay.drop i).take needle.length == needle) with
  | none =>
    exfalso
    have hmem : k ∈ List.range (hay.length + 1) := List.mem_range.mpr (by omega)
    have hnone := List.find?_eq_none.mp hfind k hmem
    simp only [beq_iff_eq] at hnone
    exact hnone hmatch
  | some i =>
    have hp := List.find?_some hfind
    simp only [beq_iff_eq] at hp
    simp only [huniq i hp]

lemma pyFind_slice (k w : Nat) (h4 : 4 ≤ w) (hk : k + w ≤ 8192) :
    pyFind (patgen 8192) (((patgen 8192).drop k).take w) = (k : Int) := by
  have hlen : (((patgen 8192).drop k).take w).length = w := slice_length k w hk
  apply pyFind_eq_of
  · rw [patgen_length]; omega
  · rw [hlen]
  · intro i hi
    have hli : (((patgen 8192).drop i).take
        ((((patgen 8192).drop k).take w).length)).length =
        (((patgen 8192).drop k).take w).length := by
      rw [hi]
    rw [hlen] at hi hli
    have hiw : i + w ≤ 8192 := by
      simp [patgen] at hli
      omega
    exact window_inj i k w h4 hiw hk hi

lemma pyFind_head_gt (needle : List Nat) (b : Nat) (hhead : needle.head? = some b)
    (hb : 129 < b) : pyFind (patgen 8192) needle = -1 := by
  unfold pyFind
  cases hfind : (List.range ((patgen 8192).length + 1)).find?
      (fun i => ((patgen 8192).drop i).take needle.length == needle) with
  | none => rfl
  | some i =>
    exfalso
    have hp := List.find?_some hfind
    simp only [beq_iff_eq] at hp
    have hne : needle ≠ [] := by
      intro h
      rw [h] at hhead
      exact Option.noConfusion hhead
    have hlen1 : 1 ≤ needle.length := List.length_pos.mpr hne
    have h0 : (((patgen 8192).drop i).take needle.length)[0]? = needle[0]? := by rw [hp]
    have hn0 : needle[0]? = some b := by
      rw [← List.head?_eq_getElem?]
      exact hhead
    by_cases hi : i < 8192
    · rw [slice_get i needle.length 0 (by omega) (by omega), hn0] at h0
      have hb129 : patByte (i + 0) = b := Option.some.inj h0
      have := patByte_le (i + 0) (by omega)
      omega
    · have hdrop : (patgen 8192).drop i = [] := by
        apply List.drop_eq_nil_of_le
        rw [patgen_length]
        omega
      rw [hdrop] at hp
      simp at hp
      exact hne hp

lemma storeowner_sentinel (is64 : Bool) (v : Int) (needle : List Nat) (b : Nat)
    (hpack : structPack (struct_fmt is64) v = some needle)
    (hhead : needle.head? = some b) (hb : 129 < b) :
    sks_storeownerprocess is64 v = some (-1) := by
  simp only [sks_storeownerprocess, hpack, Option.map_some']
  rw [pyFind_head_gt needle b hhead hb]

lemma foldl_mHook_stable (a : Nat) (ha : a ≠ 0) (s : Nat) (trace : List AccessEvent) :
    trace.foldl mHook ⟨some a, s⟩ = ⟨some a, s⟩ := by
  induction trace with
  | nil => rfl
  | cons ev rest ih =>
    have hm : mHook ⟨some a, s⟩ ev = ⟨some a, s⟩ := by
      simp [mHook, pyTruthy, ha]
    rw [List.foldl_cons, hm, ih]

lemma foldl_mHook_none (s : Nat) (trace : List AccessEvent)
    (h : ∀ ev ∈ trace, ev.accessType ≠ 16) :
    trace.foldl mHook ⟨none, s⟩ = ⟨none, s⟩ := by
  induction trace with
  | nil => rfl
  | cons ev rest ih =>
    have h1 : ev.accessType ≠ 16 := h ev (by simp)
    have hm : mHook ⟨none, s⟩ ev = ⟨none, s⟩ := by
      simp [mHook, pyTruthy, h1]
    rw [List.foldl_cons, hm]
    exact ih (fun e he => h e (by simp [he]))

lemma foldl_mHook_firstRead (s a : Nat) (ha : a ≠ 0) (trace : List AccessEvent)
    (h : firstRead? trace = some a) :
    trace.foldl mHook ⟨none, s⟩ = ⟨some a, s⟩ := by
  induction trace with
  | nil => simp [firstRead?] at h
  | cons ev rest ih =>
    by_cases h16 : ev.accessType = 16
    · have hav : ev.memAccessAddress = a := by
        simpa [firstRead?, h16] using h
      have hm : mHook ⟨none, s⟩ ev = ⟨some a, s⟩ := by
        simp [mHook, pyTruthy, h16, hav]
      rw [List.foldl_cons, hm, foldl_mHook_stable a ha s rest]
    · have hr : firstRead? rest = some a := by
        simpa [firstRead?, h16] using h
      have hm : mHook ⟨none, s⟩ ev = ⟨none, s⟩ := by
        simp [mHook, pyTruthy, h16]
      rw [List.foldl_cons, hm]
      exact ih hr

/-! Claim theorems. -/

/-- C1 (counterexample): the claim says the memory hook of
sks_compressedregionptrarray records only the first read whose address lies
inside the probe range.  With the probe loaded at 1000 (range
1000..1000+8192) and a trace whose first read is at the out-of-range address
50 and whose second read is at the in-range address 1100, the claim predicts
offset 100; the code records the very first read with no range check and
returns 50 - 1000 = -950. -/
theorem C1_counterexample :
    sks_compressedregionptrarray 1000
      [⟨16, 50, 4, 0⟩, ⟨16, 1100, 4, 0⟩] = some (-950) ∧
    sks_compressedregionptrarray 1000
      [⟨16, 50, 4, 0⟩, ⟨16, 1100, 4, 0⟩] ≠ some 100 := by
  constructor
  · rfl
  · decide

/-- C1 (amended): sks_compressedregionptrarray seeds the pointer-width
first-argument register with the probe base, and its memory hook records the
first read of the emulation regardless of address range (later accesses are
ignored once the recorded address is truthy); the function returns the
recorded address minus the probe base.  In particular, for a run whose first
read is at probe_base + k with probe_base + k nonzero, it returns exactly k. -/
theorem C1_amended_first_read (lp_smkmstore k : Nat) (trace : List AccessEvent)
    (h : firstRead? trace = some (lp_smkmstore + k)) (hnz : lp_smkmstore + k ≠ 0) :
    sks_compressedregionptrarray lp_smkmstore trace = some (k : Int) := by
  have hf := foldl_mHook_firstRead lp_smkmstore (lp_smkmstore + k) hnz trace h
  simp only [sks_compressedregionptrarray, hf]
  congr 1
  push_cast
  ring

/-- C1 (witness): the amended theorem at probe base 1000 and a trace whose
first read is at 1100, giving offset 100. -/
theorem C1_witness :
    firstRead? [⟨16, 1100, 4, 0⟩] = some (1000 + 100) ∧ 1000 + 100 ≠ 0 ∧
    sks_compressedregionptrarray 1000 [⟨16, 1100, 4, 0⟩] = some ((100 : Nat) : Int) :=
  ⟨by decide, by decide,
    C1_amended_first_read 1000 100 [⟨16, 1100, 4, 0⟩] (by decide) (by decide)⟩

/-- C2: sks_storeownerprocess packs the final value of the designated
register as a fixed-width little-endian integer of the active pointer width
(8 bytes on 64-bit, 4 on 32-bit), searches the probe bytes for that
sequence, and returns the byte index of the match: whenever the register
value is exactly the value whose packed bytes are the probe window of the
pointer width at offset k, the resolver returns exactly k. -/
theorem C2_value_round_trip (is64 : Bool) (k : Nat) (reg_ecx : Int)
    (hk : k + (if is64 then 8 else 4) ≤ 8192)
    (hv : structPack (struct_fmt is64) reg_ecx =
      some (((patgen 8192).drop k).take (if is64 then 8 else 4))) :
    sks_storeownerprocess is64 reg_ecx = some (k : Int) := by
  simp only [sks_storeownerprocess, hv, Option.map_some']
  rw [pyFind_slice k (if is64 then 8 else 4) (by cases is64 <;> simp) hk]

/-- C2 (witness): on 32-bit, the register value 2151678593 packs to the
4-byte window of the probe at offset 7, and the resolver returns 7. -/
theorem C2_witness :
    7 + (if false then 8 else 4) ≤ 8192 ∧
    structPack (struct_fmt false) 2151678593 =
      some (((patgen 8192).drop 7).take (if false then 8 else 4)) ∧
    sks_storeownerprocess false 2151678593 = some ((7 : Nat) : Int) :=
  have hpack : structPack (struct_fmt false) 2151678593 =
      some (((patgen 8192).drop 7).take (if false then 8 else 4)) := by
    rw [if_neg (by decide : ¬ (false = true)), slice_eq_map 7 4 (by omega)]
    decide
  ⟨by decide, hpack, C2_value_round_trip false 7 2151678593 (by decide) hpack⟩

/-- C3: the generated 8192-byte probe satisfies the window-uniqueness
invariant: for window size w equal to 4 or 8 and any two distinct in-range
positions, the w-byte windows of patgen 8192 differ. -/
theorem C3_probe_window_unique (w i j : Nat) (hw : w = 4 ∨ w = 8) (hij : i ≠ j)
    (hi : i + w ≤ 8192) (hj : j + w ≤ 8192) :
    ((patgen 8192).drop i).take w ≠ ((patgen 8192).drop j).take w := by
  intro h
  exact hij (window_inj i j w (by rcases hw with h4 | h8 <;> omega) hi hj h)

/-- C3 (witness): the uniqueness theorem at window size 4 and positions 0
and 1. -/
theorem C3_witness :
    ((4 : Nat) = 4 ∨ (4 : Nat) = 8) ∧ (0 : Nat) ≠ 1 ∧ 0 + 4 ≤ 8192 ∧ 1 + 4 ≤ 8192 ∧
    ((patgen 8192).drop 0).take 4 ≠ ((patgen 8192).drop 1).take 4 :=
  ⟨Or.inl rfl, by decide, by decide, by decide,
    C3_probe_window_unique 4 0 1 (Or.inl rfl) (by decide) (by decide) (by decide)⟩

/-- C4 (counterexample): the claim says that when no memory read falls
inside the probe's address range the resolver fails and never returns a
numeric offset.  With the probe at base 1000 (range 1000..9192) and a single
read at the out-of-range address 7, the code still returns the numeric
offset 7 - 1000 = -993 instead of failing. -/
theorem C4_counterexample :
    sks_compressedregionptrarray 1000 [⟨16, 7, 8, 0⟩] = some (-993) ∧
    sks_compressedregionptrarray 1000 [⟨16, 7, 8, 0⟩] ≠ none := by
  constructor
  · rfl
  · decide

/-- C4 (amended): only when the emulation performs no memory read at all
does sks_compressedregionptrarray fail: the recorded offset stays None and
the final subtraction raises an untyped TypeError (not a typed
NoAccessObserved error), so no numeric offset is returned; reads outside the
probe range do produce numeric offsets. -/
theorem C4_amended_no_read_fails (lp_smkmstore : Nat) (trace : List AccessEvent)
    (h : trace.all (fun ev => ev.accessType != 16) = true) :
    sks_compressedregionptrarray lp_smkmstore trace = none := by
  have h16 : ∀ ev ∈ trace, ev.accessType ≠ 16 := by
    intro ev hev
    have := List.all_eq_true.mp h ev hev
    simpa using this
  have hf := foldl_mHook_none lp_smkmstore trace h16
  simp [sks_compressedregionptrarray, hf]

/-- C4 (witness): the amended theorem on a trace holding one write event
(accessType 17) and no read. -/
theorem C4_witness :
    ([⟨17, 5, 4, 9⟩] : List AccessEvent).all (fun ev => ev.accessType != 16) = true ∧
    sks_compressedregionptrarray 3 [⟨17, 5, 4, 9⟩] = none :=
  ⟨by decide, C4_amended_no_read_fails 3 [⟨17, 5, 4, 9⟩] (by decide)⟩

/-- C5 (counterexample): the claim says a packed value absent from the probe
makes the resolver fail with a ValueNotFound error and that every
successfully returned result is a non-negative offset.  On 32-bit with
register value 3735928559 the packed bytes begin with 239, a byte value
patgen never emits, so the sequence occurs nowhere in the probe; the code
returns the bytes.find sentinel -1 as an ordinary negative result instead of
failing. -/
theorem C5_counterexample :
    sks_storeownerprocess false 3735928559 = some (-1) :=
  storeowner_sentinel false 3735928559 [239, 190, 173, 222] 239
    (by decide) (by decide) (by decide)

/-- C5 (amended): when the packed register value does not occur in the probe
(witnessed here by its leading byte exceeding 129, the largest byte value
patgen emits), sks_storeownerprocess returns the bytes.find sentinel -1 as
an ordinary value rather than failing with a typed ValueNotFound error, so
returned results are not guaranteed non-negative. -/
theorem C5_amended_sentinel (is64 : Bool) (reg_ecx : Int) (needle : List Nat) (b : Nat)
    (hpack : structPack (struct_fmt is64) reg_ecx = some needle)
    (hhead : needle.head? = some b) (hb : 129 < b) :
    sks_storeownerprocess is64 reg_ecx = some (-1) :=
  storeowner_sentinel is64 reg_ecx needle b hpack hhead hb

/-- C5 (witness): the amended theorem on 64-bit at register value
18446744073709551615, whose packed bytes are eight 255 bytes. -/
theorem C5_witness :
    structPack (struct_fmt true) 18446744073709551615 =
      some [255, 255, 255, 255, 255, 255, 255, 255] ∧
    ([255, 255, 255, 255, 255, 255, 255, 255] : List Nat).head? = some 255 ∧
    129 < 255 ∧
    sks_storeownerprocess true 18446744073709551615 = some (-1) :=
  ⟨by decide, by decide, by decide,
    C5_amended_sentinel true 18446744073709551615 [255, 255, 255, 255, 255, 255, 255, 255]
      255 (by decide) (by decide) (by decide)⟩

/-- C6 (counterexample): the claim says _dump isolates a failing field
resolution and keeps resolving and logging the remaining fields.  When the
second resolver raises (none) while the third would return 5, the code logs
only the first field and aborts: the third field's value never appears in
the log. -/
theorem C6_counterexample :
    _dump (some 0) none (some 5) = ([0], false) ∧
    (_dump (some 0) none (some 5)).fst ≠ [0, 5] := by
  constructor
  · rfl
  · decide

/-- C6 (amended): _dump has no per-field error isolation: a resolver call
that raises aborts the whole dump, so the fields after the failing one are
neither resolved nor logged (a failure in the first field logs nothing, a
failure in the second logs only the first field's value). -/
theorem C6_amended_abort (v1 : Int) (r2 r3 : Option Int) :
    _dump none r2 r3 = ([], false) ∧ _dump (some v1) none r3 = ([v1], false) :=
  ⟨rfl, rfl⟩

/-- C7: architecture dispatch is consistent across the resolvers: on 64-bit
both resolvers pick the register name rcx and the pack format is the 8-byte
little-endian format, on 32-bit both pick ecx and the 4-byte little-endian
format, and _dump selects the x64 key exactly on 64-bit and x86 otherwise. -/
theorem C7_arch_dispatch : ∀ (is64 : Bool) (v : Int),
    dump_arch is64 = (if is64 then "x64" else "x86") ∧
    reg_cx_compressedregionptrarray is64 = (if is64 then "rcx" else "ecx") ∧
    reg_cx_storeownerprocess is64 = reg_cx_compressedregionptrarray is64 ∧
    struct_fmt is64 = (if is64 then "<Q" else "<I") ∧
    structPack (struct_fmt is64) v = packLE (if is64 then 8 else 4) v := by
  intro is64 v
  cases is64 <;> exact ⟨rfl, rfl, rfl, rfl, rfl⟩

/-- C8: sks_ststore is the constant 0 (no symbol lookup, probe generation or
emulation appears in its embedding), and it is registered for both the
32-bit and the 64-bit dispatch table. -/
theorem C8_ststore_constant_zero :
    sks_ststore = 0 ∧
    ("x86", "sks_ststore") ∈ arch_fns ∧ ("x64", "sks_ststore") ∈ arch_fns :=
  ⟨rfl, by decide, by decide⟩

/-- C9: the packing step of sks_storeownerprocess guards the pointer width:
a register value that is negative or at least 2^32 on 32-bit (2^64 on
64-bit) makes struct.pack raise (modelled as none), so no offset is ever
produced from an out-of-width value. -/
theorem C9_pack_width_guard (is64 : Bool) (reg_ecx : Int)
    (h : reg_ecx < 0 ∨ (2 : Int) ^ (8 * (if is64 then 8 else 4)) ≤ reg_ecx) :
    sks_storeownerprocess is64 reg_ecx = none := by
  cases is64 with
  | false =>
    have hfmt : structPack (struct_fmt false) reg_ecx = packLE 4 reg_ecx := rfl
    have hcond : ¬ (0 ≤ reg_ecx ∧ reg_ecx < (2 : Int) ^ (8 * 4)) := by
      simp only [if_neg (by decide : ¬ (false = true))] at h
      rcases h with h | h
      · intro hc; omega
      · intro hc
        have := hc.2
        norm_num at h this
        omega
    simp only [sks_storeownerprocess, hfmt, packLE, if_neg hcond, Option.map_none']
  | true =>
    have hfmt : structPack (struct_fmt true) reg_ecx = packLE 8 reg_ecx := rfl
    have hcond : ¬ (0 ≤ reg_ecx ∧ reg_ecx < (2 : Int) ^ (8 * 8)) := by
      simp only [if_pos (rfl : true = true)] at h
      rcases h with h | h
      · intro hc; omega
      · intro hc
        have := hc.2
        norm_num at h this
        omega
    simp only [sks_storeownerprocess, hfmt, packLE, if_neg hcond, Option.map_none']

/-- C9 (witness): the guard theorem on 64-bit at the negative register
value -1. -/
theorem C9_witness :
    ((-1 : Int) < 0 ∨ (2 : Int) ^ (8 * (if true then 8 else 4)) ≤ -1) ∧
    sks_storeownerprocess true (-1) = none :=
  ⟨Or.inl (by decide), C9_pack_width_guard true (-1) (Or.inl (by decide))⟩

/-- C10: every field resolver of SmkmStore is registered for both bitnesses:
for either detected architecture the dispatch table holds an entry for all
three field names, so _dump never meets a missing-architecture entry. -/
theorem C10_all_fields_registered : ∀ is64 : Bool,
    smkmstore_fields.all (fun f => arch_fns.contains (dump_arch is64, f)) = true := by
  intro is64
  cases is64 <;> decide
